import Mathlib

/-!
Verification of the load-tester core (repository `9trocode/load-tester`)
against its natural-language specification.

The Go sources are shallowly embedded: pure helpers become Lean functions,
stateful code becomes explicit state passing, Go `int`/`int64` become `Int`
or `Nat` (counters only ever increment and never approach 2^63, so overflow
is immaterial), and Go `float64` quantities (latencies, rates, thresholds)
are modelled as exact rationals `ℚ`.  Fallible handlers return `Except`.
Go strings are modelled as `List Char` (all inputs of interest are ASCII,
so byte and rune indexing coincide); the needed `strings` package
operations are re-implemented structurally below.  Each definition is
translated from a named function of the source; the file/line anchors
refer to `src/database.go` (whose second concatenated document holds the
UUID-keyed test manager) and `src/loadtest.go`.
-/

namespace LoadTester

/-! ## Go string primitives -/

/-- `strings.HasPrefix` on rune lists. -/
def chStartsWith : List Char → List Char → Bool
  | _, [] => true
  | [], _ :: _ => false
  | a :: as, b :: bs => a == b && chStartsWith as bs

/-- Whitespace as trimmed by `strings.TrimSpace` (ASCII cases suffice
for the inputs considered here). -/
def goIsSpace (c : Char) : Bool :=
  c == ' ' || c == '\t' || c == '\n' || c == '\r'

/-- `strings.TrimSpace` on rune lists. -/
def chTrim (s : List Char) : List Char :=
  ((s.dropWhile goIsSpace).reverse.dropWhile goIsSpace).reverse

/-- Split at the first occurrence of a (non-empty) separator, returning
the parts before and after it, or `none` when the separator is absent.
Captures both `strings.Contains` and the prefix/suffix decomposition that
`net/url` performs at `"://"`. -/
def chSplitFirst (sep : List Char) : List Char → Option (List Char × List Char)
  | [] => none
  | a :: as =>
      if chStartsWith (a :: as) sep then some ([], (a :: as).drop sep.length)
      else
        match chSplitFirst sep as with
        | some (pre, post) => some (a :: pre, post)
        | none => none

/-- `strings.Split(s, ":")[0]`: the prefix before the first colon. -/
def chBeforeColon (s : List Char) : List Char :=
  s.takeWhile (fun c => c != ':')

/-- `strings.ToLower` on rune lists (ASCII). -/
def chToLower (s : List Char) : List Char :=
  s.map Char.toLower

/-! ## Host validator (src/database.go:1124-1245) -/

/-- Classification of the rejections issued by `validateHost`; the Go
code returns distinct `fmt.Errorf` messages for each case. -/
inductive HostError where
  | emptyHost        -- "host cannot be empty"
  | badScheme        -- "only HTTP and HTTPS schemes are allowed"
  | loopback         -- "localhost and loopback addresses are not allowed"
  | privateIP        -- "private IP addresses are not allowed"
  | metadataService  -- "metadata service addresses are not allowed"
deriving DecidableEq, Repr

/-- Metadata-service hostnames blocked by `validateHost`
(src/database.go:1169-1174). -/
def metadataHosts : List (List Char) :=
  ["169.254.169.254".data, "metadata.google.internal".data,
   "169.254.169.123".data, "100.100.100.200".data]

/-- `isLocalIP` (src/database.go:1213-1245): strip an optional `:port`
suffix, then test for localhost/loopback names and the RFC1918 prefixes
(10.0.0.0/8, 192.168.0.0/16, 172.16.0.0/12 enumerated as 172.16-172.31). -/
def isLocalIP (host : List Char) : Bool :=
  let h := chBeforeColon host
  h == "localhost".data || h == "127.0.0.1".data || h == "::1".data ||
  chStartsWith h "192.168.".data ||
  chStartsWith h "10.".data ||
  chStartsWith h "172.16.".data ||
  chStartsWith h "172.17.".data ||
  chStartsWith h "172.18.".data ||
  chStartsWith h "172.19.".data ||
  chStartsWith h "172.20.".data ||
  chStartsWith h "172.21.".data ||
  chStartsWith h "172.22.".data ||
  chStartsWith h "172.23.".data ||
  chStartsWith h "172.24.".data ||
  chStartsWith h "172.25.".data ||
  chStartsWith h "172.26.".data ||
  chStartsWith h "172.27.".data ||
  chStartsWith h "172.28.".data ||
  chStartsWith h "172.29.".data ||
  chStartsWith h "172.30.".data ||
  chStartsWith h "172.31.".data

/-- Result of URL parsing as consumed by `validateHost`: the scheme and
the hostname (authority with any `:port` suffix removed). -/
structure ParsedURL where
  scheme : List Char
  hostname : List Char
deriving DecidableEq, Repr

/-- Model of `net/url.Parse` followed by `URL.Hostname()` for the
scheme-qualified strings `validateHost` feeds it (no userinfo and no
bracketed IPv6 forms occur among the validated inputs): the scheme is the
part before the first `://`, the authority runs to the first `/`, and the
hostname is the authority up to a `:` port separator. -/
def parseURL (s : List Char) : ParsedURL :=
  match chSplitFirst "://".data s with
  | some (sc, rest) =>
      let authority := rest.takeWhile (fun c => c != '/')
      { scheme := sc, hostname := chBeforeColon authority }
  | none =>
      { scheme := [], hostname := chBeforeColon s }

/-- `validateHost` (src/database.go:1124-1182): trim, reject empty input,
parse (prefixing `http://` when no `://` is present), reject non-HTTP(S)
schemes, then reject loopback, private-range and metadata hostnames. -/
def validateHost (host0 : String) : Except HostError Unit :=
  let host := chTrim host0.data
  if host == [] then .error .emptyHost else
  let urlToCheck := if (chSplitFirst "://".data host).isSome then host
                    else "http://".data ++ host
  let parsedURL := parseURL urlToCheck
  let scheme := chToLower parsedURL.scheme
  if scheme != [] && scheme != "http".data && scheme != "https".data then
    .error .badScheme
  else
  let hostname := if parsedURL.hostname == [] then chBeforeColon host
                  else parsedURL.hostname
  if hostname == "localhost".data || hostname == "127.0.0.1".data || hostname == "::1".data then
    .error .loopback
  else if isLocalIP hostname then
    .error .privateIP
  else if metadataHosts.contains hostname then
    .error .metadataService
  else .ok ()

/-! ## Data model (src/database.go:19-51, 90-131, 267-277, 547-563) -/

/-- `TestRun` (src/database.go:19-43).  Wall-clock times are integer
milliseconds; latency/rate floats are rationals. -/
structure TestRun where
  id : Int
  uuid : String
  host : String
  maskHost : Bool
  totalUsers : Int
  rampUpSec : Int
  duration : Int
  status : String
  startedAt : Int
  completedAt : Option Int
  totalRequests : Nat
  successCount : Nat
  errorCount : Nat
  avgLatency : ℚ
  minLatency : ℚ
  maxLatency : ℚ
  rps : ℚ
  method : String
  body : String
  maxConcurrentRequests : Int
  errorThreshold : ℚ
  stoppedByCircuit : Bool
deriving DecidableEq, Repr

/-- `RequestMetric` (src/database.go:45-51): one per-request sample. -/
structure RequestMetric where
  testRunID : Int
  timestampMs : Int
  latency : ℚ
  success : Bool
  statusCode : Int
deriving DecidableEq, Repr

/-- `TimeSeriesPoint` (src/database.go:557-563). -/
structure TimeSeriesPoint where
  timestamp : Int
  requests : Nat
  rps : ℚ
  avgLatency : ℚ
  successRate : ℚ
deriving DecidableEq, Repr

/-- `MetricsCollector` (src/database.go:547-555): live aggregator state
(counters, latency reservoir, rolling ring). -/
structure MetricsCollector where
  totalRequests : Nat
  successCount : Nat
  errorCount : Nat
  latencies : List ℚ
  timeSeries : List TimeSeriesPoint
deriving DecidableEq, Repr

/-- Fresh collector as built in `HandleStartTest`
(src/database.go:799-803). -/
def MetricsCollector.init : MetricsCollector :=
  { totalRequests := 0, successCount := 0, errorCount := 0, latencies := [], timeSeries := [] }

/-- `MaxLatencySamples` (src/database.go:621). -/
def MaxLatencySamples : Nat := 10000

/-- `MaxTimeSeriesPoints`: the literal `3600` cap of
`collectTimeSeries` (src/database.go:1827). -/
def MaxTimeSeriesPoints : Nat := 3600

/-- The append-then-trim idiom shared by the latency reservoir
(src/database.go:1765-1769) and the time-series ring
(src/database.go:1825-1829): append, and when the length exceeds `K`
keep only the last `K` entries. -/
def appendCapped (K : Nat) (xs : List α) (x : α) : List α :=
  let ys := xs ++ [x]
  if ys.length > K then ys.drop (ys.length - K) else ys

/-- `MetricsCollector.Record` (src/database.go:1756-1771): increment
total, increment exactly one of success/error, then append the latency to
the reservoir keeping only the newest `MaxLatencySamples`.  The status
code parameter is accepted but not aggregated, as in the source. -/
def MetricsCollector.record (mc : MetricsCollector) (latency : ℚ) (success : Bool)
    (_statusCode : Int) : MetricsCollector :=
  { mc with
    totalRequests := mc.totalRequests + 1
    successCount := if success then mc.successCount + 1 else mc.successCount
    errorCount := if success then mc.errorCount else mc.errorCount + 1
    latencies := appendCapped MaxLatencySamples mc.latencies latency }

/-- One iteration of the `collectTimeSeries` sampler loop
(src/database.go:1780-1835), parameterised by the previous cumulative
request count, the wall seconds elapsed since the previous tick, and the
current time.  When `elapsed ≤ 0` the tick is a no-op; otherwise a point
is appended to the ring keeping only the newest 3600. -/
def MetricsCollector.collectTick (mc : MetricsCollector) (lastRequestCount : Nat)
    (elapsed : ℚ) (nowMs : Int) : MetricsCollector :=
  if elapsed > 0 then
    let currentRequests := mc.totalRequests
    let currentSuccess := mc.successCount
    let rps := ((currentRequests : ℚ) - (lastRequestCount : ℚ)) / elapsed
    let recentLatencies := if mc.latencies.length > 100 then
        mc.latencies.drop (mc.latencies.length - 100) else mc.latencies
    let avgLatency := if mc.latencies.length > 0 then
        recentLatencies.sum / (recentLatencies.length : ℚ) else 0
    let successRate := if currentRequests > 0 then
        (currentSuccess : ℚ) / (currentRequests : ℚ) * 100 else 0
    let point : TimeSeriesPoint :=
      { timestamp := nowMs, requests := currentRequests, rps := rps,
        avgLatency := avgLatency, successRate := successRate }
    { mc with timeSeries := appendCapped MaxTimeSeriesPoints mc.timeSeries point }
  else mc

/-- `calculateAndSaveMetrics` (src/database.go:1247-1293): snapshot the
collector, fold avg/min/max over the latency reservoir, compute
`rps = total / elapsed`, and finalize the descriptor with status
`"completed"` and `completed_at = now`.  (`elapsed = 0` would be an
IEEE infinity in Go; in `ℚ` the division yields `0` — no claim depends
on that value.) -/
def calculateAndSaveMetrics (run : TestRun) (mc : MetricsCollector)
    (elapsed : ℚ) (nowMs : Int) : TestRun :=
  let latencies := mc.latencies
  let avgLatency := if latencies.length > 0 then latencies.sum / (latencies.length : ℚ) else 0
  let minLatency := match latencies with
    | [] => 0
    | a :: as => as.foldl min a
  let maxLatency := match latencies with
    | [] => 0
    | a :: as => as.foldl max a
  { run with
    status := "completed"
    completedAt := some nowMs
    totalRequests := mc.totalRequests
    successCount := mc.successCount
    errorCount := mc.errorCount
    avgLatency := avgLatency
    minLatency := minLatency
    maxLatency := maxLatency
    rps := (mc.totalRequests : ℚ) / elapsed }

/-- The columns of the `test_runs` table created by `InitDB`
(src/database.go:90-112); the repository's migrations
(`migrations/002_add_mask_host_flag.sql` and the method/body/headers
migration) add no column beyond these. -/
def testRunsColumns : List String :=
  ["id", "uuid", "host", "mask_host", "total_users", "ramp_up_sec", "duration",
   "status", "started_at", "completed_at", "total_requests", "success_count",
   "error_count", "avg_latency", "min_latency", "max_latency", "rps",
   "method", "body", "headers"]

/-- The row written by the finalization `UPDATE` in `UpdateTestRun`
(src/database.go:267-277): exactly the columns of its SET clause. -/
structure TestRunUpdateRow where
  status : String
  completedAt : Option Int
  totalRequests : Nat
  successCount : Nat
  errorCount : Nat
  avgLatency : ℚ
  minLatency : ℚ
  maxLatency : ℚ
  rps : ℚ
deriving DecidableEq, Repr

/-- Projection of a descriptor onto the columns `UpdateTestRun`
persists (src/database.go:267-277). -/
def updateTestRunRow (run : TestRun) : TestRunUpdateRow :=
  { status := run.status, completedAt := run.completedAt,
    totalRequests := run.totalRequests, successCount := run.successCount,
    errorCount := run.errorCount, avgLatency := run.avgLatency,
    minLatency := run.minLatency, maxLatency := run.maxLatency, rps := run.rps }

/-- A live test context: the descriptor, the collector, and whether the
run's cancellation scope has been cancelled (`TestContext`,
src/database.go:525-535). -/
structure TestCtx where
  run : TestRun
  metrics : MetricsCollector
  cancelled : Bool
deriving DecidableEq, Repr

/-- `HandleStopTest` of the UUID-keyed manager (src/database.go:1325-1342)
acting on an active test: it calls `calculateAndSaveMetrics` and returns;
it does not invoke `Cancel`, so the cancellation state is untouched. -/
def handleStopTest (ctx : TestCtx) (elapsed : ℚ) (nowMs : Int) : TestCtx :=
  { ctx with run := calculateAndSaveMetrics ctx.run ctx.metrics elapsed nowMs }

/-- `HandleStopTest` of the ID-keyed manager (src/loadtest.go:1000-1027)
acting on an active test: `testCtx.Cancel()` followed by
`calculateAndSaveMetrics` (src/loadtest.go:571-608, which likewise sets
status `"completed"`). -/
def handleStopTestLegacy (ctx : TestCtx) (elapsed : ℚ) (nowMs : Int) : TestCtx :=
  { ctx with
    cancelled := true
    run := calculateAndSaveMetrics ctx.run ctx.metrics elapsed nowMs }

/-- The circuit-breaker trip condition checked every 2 seconds by the
monitoring goroutine of `runLoadTest` (src/database.go:953-987): the
breaker is disabled when the threshold is `≤ 0`, checks only once
`total ≥ 10`, and trips when `100 × error / total ≥ threshold`. -/
def circuitBreakerTrips (errorThreshold : ℚ) (totalReqs errorCount : Nat) : Bool :=
  if errorThreshold ≤ 0 then false
  else if totalReqs ≥ 10 then
    decide ((errorCount : ℚ) / (totalReqs : ℚ) * 100 ≥ errorThreshold)
  else false

/-- Effect of a circuit-breaker tick on the context
(src/database.go:972-982): when the trip condition holds, set
`StoppedByCircuit` on the in-memory descriptor and cancel the run. -/
def circuitBreakerTick (ctx : TestCtx) : TestCtx :=
  if circuitBreakerTrips ctx.run.errorThreshold ctx.metrics.totalRequests ctx.metrics.errorCount then
    { ctx with run := { ctx.run with stoppedByCircuit := true }, cancelled := true }
  else ctx

/-- A freshly admitted descriptor as built by `HandleStartTest`
(src/database.go:773-787), here with placeholder identity fields. -/
def sampleRunningRun : TestRun :=
  { id := 1, uuid := "u-1", host := "example.com", maskHost := false,
    totalUsers := 1, rampUpSec := 0, duration := 10, status := "running",
    startedAt := 0, completedAt := none, totalRequests := 0, successCount := 0,
    errorCount := 0, avgLatency := 0, minLatency := 0, maxLatency := 0,
    rps := 0, method := "GET", body := "", maxConcurrentRequests := 10,
    errorThreshold := 0, stoppedByCircuit := false }

/-- An active context for `sampleRunningRun` whose cancellation scope is
still open. -/
def sampleActiveCtx : TestCtx :=
  { run := sampleRunningRun, metrics := MetricsCollector.init, cancelled := false }

/-- Claim C3: the host validator rejects `http://127.0.0.1`,
`http://10.0.0.1`, `http://169.254.169.254/latest/meta-data`,
`file:///etc/passwd`, `ftp://example.com` and the empty string, each with
its classified error. -/
theorem C3_validator_rejects_dangerous_targets :
    validateHost "http://127.0.0.1" = .error .loopback
  ∧ validateHost "http://10.0.0.1" = .error .privateIP
  ∧ validateHost "http://169.254.169.254/latest/meta-data" = .error .metadataService
  ∧ validateHost "file:///etc/passwd" = .error .badScheme
  ∧ validateHost "ftp://example.com" = .error .badScheme
  ∧ validateHost "" = .error .emptyHost := by
  refine ⟨?_, ?_, ?_, ?_, ?_, ?_⟩ <;> rfl

/-! ## Claims C1, C2: stop requests and circuit-breaker finalization -/

/-- Claim C1 counterexample: an external stop request on an active run
does not produce the terminal status `"stopped"`.  On the concrete active
context `sampleActiveCtx`, `HandleStopTest` (src/database.go:1325-1342)
finalizes the descriptor via `calculateAndSaveMetrics` with status
`"completed"`, and it never cancels the run's context, so the virtual
users are not made to cease. -/
theorem C1_counterexample_stop_yields_completed :
    (handleStopTest sampleActiveCtx 1 5).run.status ≠ "stopped"
  ∧ (handleStopTest sampleActiveCtx 1 5).run.status = "completed"
  ∧ (handleStopTest sampleActiveCtx 1 5).cancelled = false := by
  refine ⟨by decide, rfl, rfl⟩

/-- Claim C1 (amended): for every run that receives an external stop
request while active, the run is finalized with terminal status
`"completed"` — the code has no `"stopped"` status.  The ID-keyed stop
handler (src/loadtest.go:1000-1027) does cancel the run's context so its
virtual users cease, while the UUID-keyed handler
(src/database.go:1325-1342) leaves the cancellation state unchanged. -/
theorem C1_stop_finalizes_as_completed (ctx : TestCtx) (elapsed : ℚ) (now : Int) :
    (handleStopTest ctx elapsed now).run.status = "completed"
  ∧ (handleStopTest ctx elapsed now).run.completedAt = some now
  ∧ (handleStopTest ctx elapsed now).cancelled = ctx.cancelled
  ∧ (handleStopTestLegacy ctx elapsed now).run.status = "completed"
  ∧ (handleStopTestLegacy ctx elapsed now).run.completedAt = some now
  ∧ (handleStopTestLegacy ctx elapsed now).cancelled = true :=
  ⟨rfl, rfl, rfl, rfl, rfl, rfl⟩

/-- A run with circuit-breaker threshold `T = 50`. -/
def runTrip : TestRun := { sampleRunningRun with errorThreshold := 50 }

/-- A collector snapshot in which all 10 recorded requests failed. -/
def mcTrip : MetricsCollector :=
  { totalRequests := 10, successCount := 0, errorCount := 10,
    latencies := [5, 5, 5, 5, 5, 5, 5, 5, 5, 5], timeSeries := [] }

/-- Claim C2 counterexample: the circuit-breaker flag never reaches the
persisted descriptor.  On the concrete tripped run `runTrip`/`mcTrip`,
the finalized in-memory descriptor has `stoppedByCircuit = true`, yet the
row written by the finalization `UPDATE` (src/database.go:267-277) is
identical to that of the same run finalized without any trip, and the
`test_runs` schema (src/database.go:90-112) has no `stopped_by_circuit`
column at all — so the descriptor "as persisted by the finalization
update" does not carry the flag. -/
lemma mcTrip_trips :
    circuitBreakerTrips runTrip.errorThreshold mcTrip.totalRequests mcTrip.errorCount = true := by
  simp only [circuitBreakerTrips, runTrip, mcTrip, sampleRunningRun]
  norm_num

theorem C2_counterexample_flag_not_persisted :
    circuitBreakerTrips runTrip.errorThreshold mcTrip.totalRequests mcTrip.errorCount = true
  ∧ (calculateAndSaveMetrics (circuitBreakerTick ⟨runTrip, mcTrip, false⟩).run mcTrip 1 7).stoppedByCircuit = true
  ∧ (calculateAndSaveMetrics runTrip mcTrip 1 7).stoppedByCircuit = false
  ∧ updateTestRunRow (calculateAndSaveMetrics (circuitBreakerTick ⟨runTrip, mcTrip, false⟩).run mcTrip 1 7)
      = updateTestRunRow (calculateAndSaveMetrics runTrip mcTrip 1 7)
  ∧ "stopped_by_circuit" ∉ testRunsColumns := by
  refine ⟨mcTrip_trips, ?_, rfl, rfl, by decide⟩
  simp [calculateAndSaveMetrics, circuitBreakerTick, mcTrip_trips]

/-- Claim C2 (amended): when the circuit breaker trips (which requires
`T > 0`, `total ≥ 10` and trip-time error rate `≥ T`), the finalized
in-memory descriptor has `stopped_by_circuit = true`, `completed_at` set,
and carries the counters whose error rate crossed the threshold; but the
finalization `UPDATE` persists only status/completed_at/counters/latency
aggregates/rps, so the persisted row is independent of the flag. -/
theorem C2_circuit_trip_in_memory_only (run : TestRun) (mc : MetricsCollector)
    (elapsed : ℚ) (now : Int)
    (h : circuitBreakerTrips run.errorThreshold mc.totalRequests mc.errorCount = true) :
    run.errorThreshold > 0
  ∧ 10 ≤ mc.totalRequests
  ∧ (mc.errorCount : ℚ) / (mc.totalRequests : ℚ) * 100 ≥ run.errorThreshold
  ∧ (calculateAndSaveMetrics (circuitBreakerTick ⟨run, mc, false⟩).run mc elapsed now).stoppedByCircuit = true
  ∧ (calculateAndSaveMetrics (circuitBreakerTick ⟨run, mc, false⟩).run mc elapsed now).completedAt = some now
  ∧ (calculateAndSaveMetrics (circuitBreakerTick ⟨run, mc, false⟩).run mc elapsed now).errorCount = mc.errorCount
  ∧ (calculateAndSaveMetrics (circuitBreakerTick ⟨run, mc, false⟩).run mc elapsed now).totalRequests = mc.totalRequests
  ∧ updateTestRunRow (calculateAndSaveMetrics (circuitBreakerTick ⟨run, mc, false⟩).run mc elapsed now)
      = updateTestRunRow (calculateAndSaveMetrics run mc elapsed now) := by
  have h' := h
  unfold circuitBreakerTrips at h'
  by_cases h0 : run.errorThreshold ≤ 0
  · rw [if_pos h0] at h'
    exact absurd h' (by simp)
  rw [if_neg h0] at h'
  by_cases h10 : mc.totalRequests ≥ 10
  · rw [if_pos h10] at h'
    have hrate := of_decide_eq_true h'
    have htick : circuitBreakerTick ⟨run, mc, false⟩ =
        { run := { run with stoppedByCircuit := true }, metrics := mc, cancelled := true } := by
      unfold circuitBreakerTick
      rw [if_pos]
      exact h
    refine ⟨lt_of_not_le h0, h10, hrate, ?_, ?_, ?_, ?_, ?_⟩ <;>
      simp [htick, calculateAndSaveMetrics, updateTestRunRow]
  · rw [if_neg h10] at h'
    exact absurd h' (by simp)

/-- Witness for `C2_circuit_trip_in_memory_only` at the concrete tripped
run `runTrip`/`mcTrip`. -/
theorem C2_circuit_trip_in_memory_only_witness :
    (calculateAndSaveMetrics (circuitBreakerTick ⟨runTrip, mcTrip, false⟩).run mcTrip 1 7).stoppedByCircuit = true :=
  (C2_circuit_trip_in_memory_only runTrip mcTrip 1 7 mcTrip_trips).2.2.2.1

/-! ## Claim C5: counter consistency -/

/-- One request outcome as passed to `MetricsCollector.Record`
(src/database.go:1076: latency, success flag, status code). -/
structure Outcome where
  latency : ℚ
  success : Bool
  statusCode : Int
deriving DecidableEq, Repr

/-- Replay a sequence of recorded outcomes through `Record`, starting
from the fresh collector. -/
def replayRecords (outs : List Outcome) : MetricsCollector :=
  outs.foldl (fun mc o => mc.record o.latency o.success o.statusCode) MetricsCollector.init

lemma record_preserves_sum (mc : MetricsCollector) (l : ℚ) (s : Bool) (c : Int)
    (h : mc.totalRequests = mc.successCount + mc.errorCount) :
    (mc.record l s c).totalRequests = (mc.record l s c).successCount + (mc.record l s c).errorCount := by
  cases s <;> simp [MetricsCollector.record, h] <;> omega

lemma replay_sum_aux (outs : List Outcome) (mc : MetricsCollector)
    (h : mc.totalRequests = mc.successCount + mc.errorCount) :
    (outs.foldl (fun mc o => mc.record o.latency o.success o.statusCode) mc).totalRequests
      = (outs.foldl (fun mc o => mc.record o.latency o.success o.statusCode) mc).successCount
        + (outs.foldl (fun mc o => mc.record o.latency o.success o.statusCode) mc).errorCount := by
  induction outs generalizing mc with
  | nil => exact h
  | cons o rest ih => exact ih _ (record_preserves_sum mc o.latency o.success o.statusCode h)

/-- Claim C5: `Record` increments total and exactly one of
success/error, so after any sequence of recorded outcomes
`total = success + error`, and the finalized descriptor (which copies the
counters, src/database.go:1282-1284) satisfies
`total_requests = success_count + error_count`. -/
theorem C5_total_equals_success_plus_error (outs : List Outcome) (run : TestRun)
    (mc : MetricsCollector) (l : ℚ) (s : Bool) (c : Int) (elapsed : ℚ) (now : Int) :
    (mc.record l s c).totalRequests = mc.totalRequests + 1
  ∧ (s = true → (mc.record l s c).successCount = mc.successCount + 1
        ∧ (mc.record l s c).errorCount = mc.errorCount)
  ∧ (s = false → (mc.record l s c).errorCount = mc.errorCount + 1
        ∧ (mc.record l s c).successCount = mc.successCount)
  ∧ (replayRecords outs).totalRequests
      = (replayRecords outs).successCount + (replayRecords outs).errorCount
  ∧ (calculateAndSaveMetrics run (replayRecords outs) elapsed now).totalRequests
      = (calculateAndSaveMetrics run (replayRecords outs) elapsed now).successCount
        + (calculateAndSaveMetrics run (replayRecords outs) elapsed now).errorCount := by
  have hsum := replay_sum_aux outs MetricsCollector.init rfl
  refine ⟨rfl, ?_, ?_, hsum, ?_⟩
  · intro hs; subst hs; exact ⟨rfl, rfl⟩
  · intro hs; subst hs; exact ⟨rfl, rfl⟩
  · simpa [calculateAndSaveMetrics, replayRecords] using hsum

/-- Witness for `C5_total_equals_success_plus_error` on a concrete
two-outcome run (one success, one error). -/
theorem C5_total_equals_success_plus_error_witness :
    (replayRecords [⟨5, true, 200⟩, ⟨7, false, 500⟩]).totalRequests
      = (replayRecords [⟨5, true, 200⟩, ⟨7, false, 500⟩]).successCount
        + (replayRecords [⟨5, true, 200⟩, ⟨7, false, 500⟩]).errorCount :=
  (C5_total_equals_success_plus_error [⟨5, true, 200⟩, ⟨7, false, 500⟩]
    sampleRunningRun MetricsCollector.init 0 true 0 1 3).2.2.2.1

/-! ## Claim C4: admission parameter validation and clamping -/

/-- The range checks of `HandleStartTest` (src/database.go:662-682), in
source order, against the limit constants of src/database.go:612-623
(`MinUsers = 1`, `MaxUsers = 1000`, `MinRampUpSec = 0`,
`MaxRampUpSec = 300`, `MinDuration = 1`, `MaxDuration = 300`). -/
def validateRanges (users rampUpSec duration : Int) : Except String Unit :=
  if users < 1 ∨ users > 1000 then .error "Users must be between 1 and 1000"
  else if rampUpSec < 0 ∨ rampUpSec > 300 then .error "Ramp-up time must be between 0 and 300 seconds"
  else if duration < 1 ∨ duration > 300 then .error "Duration must be between 1 and 300 seconds"
  else if rampUpSec > duration then .error "Ramp-up time cannot exceed test duration"
  else .ok ()

/-- The silent default/cap applied to `max_concurrent_requests`
(src/database.go:752-759).  An absent JSON field decodes to `0`. -/
def clampMaxConcurrentRequests (m : Int) : Int :=
  if m ≤ 0 then 10 else if m > 100 then 100 else m

/-- The silent clamp applied to `error_threshold`
(src/database.go:761-767). -/
def clampErrorThreshold (t : ℚ) : ℚ :=
  if t < 0 then 0 else if t > 100 then 100 else t

/-- Claim C4: admission validates users ∈ [1, 1000], ramp ∈ [0, 300] with
ramp ≤ duration, and duration ∈ [1, 300], rejecting out-of-range values;
`max_concurrent_requests` is silently brought into [1, 100] with default
10 when absent (any non-positive value maps to the default 10, values
above 100 cap at 100, in-range values pass through), and
`error_threshold` is silently clamped into [0, 100]. -/
theorem C4_admission_ranges_and_clamps (u r d m : Int) (t : ℚ) :
    (validateRanges u r d = .ok () ↔
      (1 ≤ u ∧ u ≤ 1000 ∧ 0 ≤ r ∧ r ≤ 300 ∧ 1 ≤ d ∧ d ≤ 300 ∧ r ≤ d))
  ∧ 1 ≤ clampMaxConcurrentRequests m
  ∧ clampMaxConcurrentRequests m ≤ 100
  ∧ clampMaxConcurrentRequests 0 = 10
  ∧ (1 ≤ m → m ≤ 100 → clampMaxConcurrentRequests m = m)
  ∧ (100 < m → clampMaxConcurrentRequests m = 100)
  ∧ 0 ≤ clampErrorThreshold t
  ∧ clampErrorThreshold t ≤ 100
  ∧ (0 ≤ t → t ≤ 100 → clampErrorThreshold t = t) := by
  refine ⟨?_, ?_, ?_, rfl, ?_, ?_, ?_, ?_, ?_⟩
  · unfold validateRanges
    split_ifs with h1 h2 h3 h4 <;> simp <;> omega
  · unfold clampMaxConcurrentRequests
    split_ifs <;> omega
  · unfold clampMaxConcurrentRequests
    split_ifs <;> omega
  · intro hm1 hm2
    unfold clampMaxConcurrentRequests
    split_ifs <;> omega
  · intro hm
    unfold clampMaxConcurrentRequests
    split_ifs <;> omega
  · unfold clampErrorThreshold
    split_ifs <;> linarith
  · unfold clampErrorThreshold
    split_ifs <;> linarith
  · intro ht1 ht2
    unfold clampErrorThreshold
    split_ifs <;> linarith

/-- Witness for `C4_admission_ranges_and_clamps`: a request with
users = 5, ramp = 2, duration = 10 is admitted, and an in-range
max-concurrent value 50 passes through unclamped. -/
theorem C4_admission_ranges_and_clamps_witness :
    validateRanges 5 2 10 = .ok () ∧ clampMaxConcurrentRequests 50 = 50 :=
  ⟨(C4_admission_ranges_and_clamps 5 2 10 50 0).1.mpr (by norm_num),
   (C4_admission_ranges_and_clamps 5 2 10 50 0).2.2.2.2.1 (by norm_num) (by norm_num)⟩

/-! ## Claim C8: virtual-user pacing ticker -/

/-- The pacing ticker period in milliseconds, from `runUser`
(src/database.go:1013-1016): `time.Duration(1000/maxConcurrentRequests)
* time.Millisecond` — a Go integer division. -/
def tickerIntervalMs (maxConcurrentRequests : Nat) : Nat :=
  1000 / maxConcurrentRequests

/-- Claim C8 counterexample: for the admitted rate M = 3 the ticker
period is 333 ms, which is not `1000 ms / M` (that would be 1000/3 ms),
and three requests per period sum to 999 ms, so the paced rate is not
exactly 3 requests per second. -/
theorem C8_counterexample_period_not_exact :
    tickerIntervalMs 3 = 333
  ∧ tickerIntervalMs 3 * 3 ≠ 1000
  ∧ (tickerIntervalMs 3 : ℚ) ≠ 1000 / 3 := by
  refine ⟨rfl, by decide, ?_⟩
  norm_num [tickerIntervalMs]

/-- Claim C8 (amended): for every admitted per-user rate M ∈ [1, 100]
the ticker period is `⌊1000 / M⌋` milliseconds (at least 10 ms), so the
period equals `1000 ms / M` exactly — and the paced rate is exactly M
requests per second — precisely when M divides 1000. -/
theorem C8_ticker_period_is_floor (m : Nat) (h1 : 1 ≤ m) (h2 : m ≤ 100) :
    tickerIntervalMs m * m ≤ 1000
  ∧ 1000 < (tickerIntervalMs m + 1) * m
  ∧ 10 ≤ tickerIntervalMs m
  ∧ ((tickerIntervalMs m : ℚ) = 1000 / (m : ℚ) ↔ m ∣ 1000) := by
  have hm0 : 0 < m := h1
  have hmq : (m : ℚ) ≠ 0 := by positivity
  refine ⟨Nat.div_mul_le_self 1000 m, ?_, ?_, ?_, ?_⟩
  · calc 1000 = m * (1000 / m) + 1000 % m := (Nat.div_add_mod 1000 m).symm
    _ < m * (1000 / m) + m := by
        exact Nat.add_lt_add_left (Nat.mod_lt 1000 hm0) _
    _ = (1000 / m + 1) * m := by ring
  · unfold tickerIntervalMs
    rw [Nat.le_div_iff_mul_le hm0]
    omega
  · intro h
    unfold tickerIntervalMs at h
    have hmul : ((1000 / m : ℕ) : ℚ) * (m : ℚ) = 1000 := by
      rw [h]
      field_simp
    have hnat : (1000 / m) * m = 1000 := by exact_mod_cast hmul
    refine ⟨1000 / m, ?_⟩
    rw [Nat.mul_comm]
    exact hnat.symm
  · intro hdvd
    unfold tickerIntervalMs
    rw [Nat.cast_div hdvd hmq]
    norm_num

/-- Witness for `C8_ticker_period_is_floor` at M = 7 (period 142 ms,
which does not divide the second evenly). -/
theorem C8_ticker_period_is_floor_witness :
    tickerIntervalMs 7 * 7 ≤ 1000
  ∧ 1000 < (tickerIntervalMs 7 + 1) * 7
  ∧ 10 ≤ tickerIntervalMs 7
  ∧ ((tickerIntervalMs 7 : ℚ) = 1000 / (7 : ℚ) ↔ 7 ∣ 1000) :=
  C8_ticker_period_is_floor 7 (by decide) (by decide)

/-! ## Claim C6: percentile computation -/

/-- Insert into an ascending list, preserving order. -/
def insertSorted (x : ℚ) : List ℚ → List ℚ
  | [] => [x]
  | y :: ys => if x ≤ y then x :: y :: ys else y :: insertSorted x ys

/-- Model of `sort.Float64s` (ascending in-place sort of a copied slice,
src/database.go:1394-1396 and 1520-1524).  Over a linear order the
ascending reordering of a list is unique as a list, so any sorting
algorithm yields the same value; insertion sort keeps the model
structurally recursive. -/
def sortFloat64s (xs : List ℚ) : List ℚ :=
  xs.foldr insertSorted []

/-- The percentile lookup shared verbatim by `HandleGetMetrics`
(src/database.go:1406-1421) and `HandleGetHistoricalMetrics`
(src/database.go:1526-1538): index `int(float64(len) × P/100)` into the
sorted copy, guarded by `index < len`, defaulting to 0.  The float
multiplication is modelled as exact `len * P / 100` in `ℕ`: `0.50` is an
exact double, and for `0.95`/`0.99` the nearest-double error (< 9·10⁻¹⁸
per unit) is far too small to move `len × P/100` across an integer for
any list length the process could hold. -/
def percentileFrom (sortedLatencies : List ℚ) (P : Nat) : ℚ :=
  let idx := sortedLatencies.length * P / 100
  if idx < sortedLatencies.length then sortedLatencies.getD idx 0 else 0

/-- The (p50, p95, p99) triple computed by `HandleGetMetrics`
(src/database.go:1391-1422): zero when the reservoir is empty, otherwise
percentile lookups into the full sorted copy. -/
def livePercentiles (latencies : List ℚ) : ℚ × ℚ × ℚ :=
  if latencies.length > 0 then
    let sorted := sortFloat64s latencies
    (percentileFrom sorted 50, percentileFrom sorted 95, percentileFrom sorted 99)
  else (0, 0, 0)

/-- The (p50, p95, p99) triple computed by `HandleGetHistoricalMetrics`
over the complete stored sample stream (src/database.go:1517-1539). -/
def historicalPercentiles (metrics : List RequestMetric) : ℚ × ℚ × ℚ :=
  if metrics.length > 0 then
    let latencies := metrics.map (fun m => m.latency)
    let sorted := sortFloat64s latencies
    (percentileFrom sorted 50, percentileFrom sorted 95, percentileFrom sorted 99)
  else (0, 0, 0)

/-- Select the P-th entry of a (p50, p95, p99) triple. -/
def pickPercentile (t : ℚ × ℚ × ℚ) (P : Nat) : ℚ :=
  if P = 50 then t.1 else if P = 95 then t.2.1 else t.2.2

lemma insertSorted_length (x : ℚ) (l : List ℚ) :
    (insertSorted x l).length = l.length + 1 := by
  induction l with
  | nil => rfl
  | cons y ys ih =>
    unfold insertSorted
    split
    · simp
    · simp [ih]

lemma sortFloat64s_length (xs : List ℚ) :
    (sortFloat64s xs).length = xs.length := by
  induction xs with
  | nil => rfl
  | cons x rest ih =>
    unfold sortFloat64s at ih ⊢
    simp [List.foldr_cons, insertSorted_length, ih]

/-- Claim C6: for a non-empty reservoir of length `len`, each live
percentile P ∈ {50, 95, 99} is the element of the ascending-sorted copy
at index `⌊len·P/100⌋` (the index is always in range, so the in-range
guard never zeroes the result); for an empty reservoir each percentile is
0; and the historical percentiles over the stored sample stream follow
exactly the same rule applied to the samples' latencies. -/
theorem C6_percentile_selection_rule (lats : List ℚ) (ms : List RequestMetric) (P : Nat)
    (hP : P = 50 ∨ P = 95 ∨ P = 99) :
    (lats ≠ [] →
        lats.length * P / 100 < lats.length
      ∧ pickPercentile (livePercentiles lats) P
          = (sortFloat64s lats).getD (lats.length * P / 100) 0)
  ∧ pickPercentile (livePercentiles []) P = 0
  ∧ pickPercentile (historicalPercentiles ms) P
      = pickPercentile (livePercentiles (ms.map (fun m => m.latency))) P := by
  have hP99 : P ≤ 99 := by rcases hP with h | h | h <;> omega
  refine ⟨?_, ?_, ?_⟩
  · intro hne
    have hlen : 0 < lats.length := List.length_pos.mpr hne
    have hidx : lats.length * P / 100 < lats.length := by
      rw [Nat.div_lt_iff_lt_mul (by norm_num : (0:ℕ) < 100)]
      calc lats.length * P ≤ lats.length * 99 := Nat.mul_le_mul_left _ hP99
        _ < lats.length * 100 := by omega
    refine ⟨hidx, ?_⟩
    have hsorted : (sortFloat64s lats).length = lats.length := sortFloat64s_length lats
    have hidx' : (sortFloat64s lats).length * P / 100 < (sortFloat64s lats).length := by
      rw [hsorted]; exact hidx
    rcases hP with h | h | h <;> subst h <;>
      simp [livePercentiles, pickPercentile, percentileFrom, hlen, hsorted, hidx]
  · rcases hP with h | h | h <;> subst h <;> simp [livePercentiles, pickPercentile]
  · rcases hP with h | h | h <;> subst h <;>
      simp [historicalPercentiles, livePercentiles, pickPercentile]

/-- Witness for `C6_percentile_selection_rule`: on the reservoir
`[3, 1, 2]` the p50 index is `⌊3·50/100⌋ = 1` and the sorted copy is
`[1, 2, 3]`, so p50 = 2. -/
theorem C6_percentile_selection_rule_witness :
    pickPercentile (livePercentiles [3, 1, 2]) 50 = 2 := by
  have h := ((C6_percentile_selection_rule [3, 1, 2] [] 50 (Or.inl rfl)).1 (by simp)).2
  rw [h]
  rfl

/-! ## Claim C7: bounded reservoir and bounded rolling ring -/

/-- The operations that mutate collector state during a run: a recorded
request outcome (`Record`) or a sampler tick (`collectTimeSeries`). -/
inductive MCEvent where
  | record (latency : ℚ) (success : Bool) (statusCode : Int)
  | tick (lastRequestCount : Nat) (elapsed : ℚ) (nowMs : Int)
deriving Repr

/-- Apply one event to the collector. -/
def MetricsCollector.step (mc : MetricsCollector) : MCEvent → MetricsCollector
  | .record l s c => mc.record l s c
  | .tick lc e n => mc.collectTick lc e n

/-- Replay a sequence of record/tick events from the fresh collector. -/
def replayEvents (evs : List MCEvent) : MetricsCollector :=
  evs.foldl MetricsCollector.step MetricsCollector.init

/-- The latencies recorded by an event sequence, in order. -/
def recordedLats (evs : List MCEvent) : List ℚ :=
  evs.filterMap (fun e => match e with
    | .record l _ _ => some l
    | .tick _ _ _ => none)

/-- The newest `K` elements of a list (all of it when shorter). -/
def lastN (K : Nat) (xs : List α) : List α := xs.drop (xs.length - K)

lemma lastN_length_le (K : Nat) (xs : List α) : (lastN K xs).length ≤ K := by
  simp only [lastN, List.length_drop]
  omega

lemma appendCapped_length_le (K : Nat) (xs : List α) (x : α) :
    (appendCapped K xs x).length ≤ K := by
  simp only [appendCapped]
  split
  · simp only [List.length_drop]
    omega
  · rename_i h
    simp only [List.length_append, List.length_cons, List.length_nil, Nat.not_lt] at h ⊢
    omega

lemma appendCapped_lastN (K : Nat) (xs : List α) (x : α) :
    appendCapped K (lastN K xs) x = lastN K (xs ++ [x]) := by
  rcases Nat.lt_or_ge xs.length K with hK | hK
  · have h0 : xs.length - K = 0 := by omega
    have hno : ¬ (xs ++ [x]).length > K := by
      simp only [List.length_append, List.length_cons, List.length_nil]
      omega
    have h0' : (xs ++ [x]).length - K = 0 := by
      simp only [List.length_append, List.length_cons, List.length_nil]
      omega
    simp only [appendCapped, lastN, h0, List.drop_zero, hno, if_false, h0']
  · have hlen : (xs.drop (xs.length - K)).length = K := by
      rw [List.length_drop]
      omega
    have hcond : (xs.drop (xs.length - K) ++ [x]).length > K := by
      simp only [List.length_append, List.length_cons, List.length_nil, hlen]
      omega
    have harith : (xs.drop (xs.length - K) ++ [x]).length - K = 1 := by
      simp only [List.length_append, List.length_cons, List.length_nil, hlen]
      omega
    simp only [appendCapped, lastN, hcond, if_true, harith]
    rw [List.drop_append_eq_append_drop, List.drop_drop, hlen,
      List.drop_append_eq_append_drop]
    congr 1
    · congr 1
      simp only [List.length_append, List.length_cons, List.length_nil]
      omega
    · congr 1
      simp only [List.length_append, List.length_cons, List.length_nil]
      omega

lemma record_latencies_eq (mc : MetricsCollector) (l : ℚ) (s : Bool) (c : Int) :
    (mc.record l s c).latencies = appendCapped MaxLatencySamples mc.latencies l := rfl

lemma record_timeSeries_eq (mc : MetricsCollector) (l : ℚ) (s : Bool) (c : Int) :
    (mc.record l s c).timeSeries = mc.timeSeries := rfl

lemma collectTick_latencies_eq (mc : MetricsCollector) (lc : Nat) (e : ℚ) (n : Int) :
    (mc.collectTick lc e n).latencies = mc.latencies := by
  unfold MetricsCollector.collectTick
  split <;> rfl

lemma replay_append_one (evs : List MCEvent) (e : MCEvent) :
    replayEvents (evs ++ [e]) = (replayEvents evs).step e := by
  unfold replayEvents
  rw [List.foldl_append]
  rfl

lemma recordedLats_append_record (evs : List MCEvent) (l : ℚ) (s : Bool) (c : Int) :
    recordedLats (evs ++ [.record l s c]) = recordedLats evs ++ [l] := by
  unfold recordedLats
  rw [List.filterMap_append]
  rfl

lemma recordedLats_append_tick (evs : List MCEvent) (lc : Nat) (e : ℚ) (n : Int) :
    recordedLats (evs ++ [.tick lc e n]) = recordedLats evs := by
  unfold recordedLats
  rw [List.filterMap_append]
  simp

lemma replay_latencies (evs : List MCEvent) :
    (replayEvents evs).latencies = lastN MaxLatencySamples (recordedLats evs) := by
  induction evs using List.reverseRecOn with
  | nil => rfl
  | append_singleton evs e ih =>
    cases e with
    | record l s c =>
      rw [replay_append_one, recordedLats_append_record]
      show ((replayEvents evs).record l s c).latencies = _
      rw [record_latencies_eq, ih, appendCapped_lastN]
    | tick lc el n =>
      rw [replay_append_one, recordedLats_append_tick]
      show ((replayEvents evs).collectTick lc el n).latencies = _
      rw [collectTick_latencies_eq, ih]

lemma replay_timeSeries_le (evs : List MCEvent) :
    (replayEvents evs).timeSeries.length ≤ MaxTimeSeriesPoints := by
  induction evs using List.reverseRecOn with
  | nil => simp [replayEvents, MetricsCollector.init, MaxTimeSeriesPoints]
  | append_singleton evs e ih =>
    rw [replay_append_one]
    cases e with
    | record l s c =>
      show ((replayEvents evs).record l s c).timeSeries.length ≤ _
      rw [record_timeSeries_eq]
      exact ih
    | tick lc el n =>
      show ((replayEvents evs).collectTick lc el n).timeSeries.length ≤ _
      unfold MetricsCollector.collectTick
      split
      · exact appendCapped_length_le _ _ _
      · exact ih

/-- Claim C7: after any sequence of record and sampler-tick operations,
the latency reservoir holds at most `K = 10,000` samples — precisely the
newest K recorded latencies in insertion order — and the rolling
time-series ring holds at most 3,600 points. -/
theorem C7_reservoir_and_ring_bounded (evs : List MCEvent) :
    (replayEvents evs).latencies.length ≤ MaxLatencySamples
  ∧ (replayEvents evs).timeSeries.length ≤ MaxTimeSeriesPoints
  ∧ (replayEvents evs).latencies = lastN MaxLatencySamples (recordedLats evs) := by
  refine ⟨?_, replay_timeSeries_le evs, replay_latencies evs⟩
  rw [replay_latencies evs]
  exact lastN_length_le _ _

/-! ## Claim C9: historical time-series reconstruction -/

/-- The whole-second bucket offset of a sample
(src/database.go:1601-1604): `int(m.Timestamp.Sub(startTime).Seconds())`
with negative offsets clamped to 0.  At millisecond resolution Go's
float truncation toward zero coincides with `ℕ` floor division for
non-negative differences, and every negative difference is clamped. -/
def secondOffset (startMs tMs : Int) : Nat :=
  let d := tMs - startMs
  if d < 0 then 0 else d.toNat / 1000

/-- The samples grouped into the bucket for second `s`
(src/database.go:1597-1622; the map insertion preserves per-bucket
arrival order). -/
def bucketMetrics (ms : List RequestMetric) (startMs : Int) (s : Nat) : List RequestMetric :=
  ms.filter (fun m => secondOffset startMs m.timestampMs == s)

/-- The largest clamped offset over the samples
(src/database.go:1598-1607). -/
def maxSecondOffset (ms : List RequestMetric) (startMs : Int) : Nat :=
  ms.foldl (fun acc m => max acc (secondOffset startMs m.timestampMs)) 0

/-- `buildTimeSeriesPoints` (src/database.go:1586-1656): empty input
yields no points; otherwise iterate seconds `0..maxOffset` in ascending
order, skip seconds with no bucket, and emit one point per non-empty
bucket carrying the second's request count, per-second rps, average
latency and success rate. -/
def buildTimeSeriesPoints (ms : List RequestMetric) (startMs : Int) : List TimeSeriesPoint :=
  if ms.isEmpty then [] else
  (List.range (maxSecondOffset ms startMs + 1)).filterMap (fun s =>
    let b := bucketMetrics ms startMs s
    if b.isEmpty then none else
    let lats := b.map (fun m => m.latency)
    let avgLatency := if lats.length > 0 then lats.sum / (lats.length : ℚ) else 0
    let successRate := if b.length > 0 then
        ((b.filter (fun m => m.success)).length : ℚ) / (b.length : ℚ) * 100 else 0
    some { timestamp := startMs + (s : Int) * 1000,
           requests := b.length, rps := (b.length : ℚ),
           avgLatency := avgLatency, successRate := successRate })

/-- A successful stored sample completing at time `t` (milliseconds). -/
def lateSample (t : Int) : RequestMetric :=
  { testRunID := 1, timestampMs := t, latency := 10, success := true, statusCode := 200 }

/-- Claim C9 counterexample: for a run with duration `D = 1` whose three
stored samples complete at offsets 0 s, 1 s and 2 s from `started_at`
(samples are stamped at completion, so with the 30 s per-request timeout
a sample may land well past the test duration), reconstruction yields 3
non-empty buckets, exceeding the claimed bound `D + 1 = 2`; the code
applies no duration-derived cap. -/
theorem C9_counterexample_more_than_duration_buckets :
    (buildTimeSeriesPoints [lateSample 0, lateSample 1000, lateSample 2000] 0).length = 3
  ∧ ¬ ((buildTimeSeriesPoints [lateSample 0, lateSample 1000, lateSample 2000] 0).length ≤ 1 + 1) := by
  constructor
  · rfl
  · intro h
    revert h
    decide

lemma maxSecondOffset_le (ms : List RequestMetric) (startMs : Int) (D : Nat)
    (h : ∀ m ∈ ms, secondOffset startMs m.timestampMs ≤ D) :
    maxSecondOffset ms startMs ≤ D := by
  unfold maxSecondOffset
  have haux : ∀ (l : List RequestMetric) (acc : Nat), (∀ m ∈ l, secondOffset startMs m.timestampMs ≤ D) →
      acc ≤ D → l.foldl (fun acc m => max acc (secondOffset startMs m.timestampMs)) acc ≤ D := by
    intro l
    induction l with
    | nil => intro acc _ hacc; exact hacc
    | cons m rest ih =>
      intro acc hall hacc
      exact ih _ (fun x hx => hall x (List.mem_cons_of_mem m hx))
        (max_le hacc (hall m (List.mem_cons_self m rest)))
  exact haux ms 0 h (Nat.zero_le D)

/-- Claim C9 (amended): reconstruction groups samples by whole-second
offset from `started_at` with negative offsets clamped to 0, emits only
non-empty buckets, and yields at most `maxOffset + 1` points; the bound
`duration + 1` holds exactly when every sample's completion timestamp
lies within `duration` seconds of `started_at` — late-completing samples
can exceed it. -/
theorem C9_bucket_count_bound (ms : List RequestMetric) (startMs : Int) (D : Nat)
    (h : ∀ m ∈ ms, secondOffset startMs m.timestampMs ≤ D) :
    (buildTimeSeriesPoints ms startMs).length ≤ maxSecondOffset ms startMs + 1
  ∧ maxSecondOffset ms startMs ≤ D
  ∧ (buildTimeSeriesPoints ms startMs).length ≤ D + 1 := by
  have hgen : (buildTimeSeriesPoints ms startMs).length ≤ maxSecondOffset ms startMs + 1 := by
    unfold buildTimeSeriesPoints
    split
    · simp
    · calc (List.filterMap _ (List.range (maxSecondOffset ms startMs + 1))).length
          ≤ (List.range (maxSecondOffset ms startMs + 1)).length := List.length_filterMap_le _ _
        _ = maxSecondOffset ms startMs + 1 := List.length_range _
  have hmax := maxSecondOffset_le ms startMs D h
  exact ⟨hgen, hmax, le_trans hgen (by omega)⟩

/-- Witness for `C9_bucket_count_bound`: the same three samples against
the in-window duration `D = 2` give at most `2 + 1` points. -/
theorem C9_bucket_count_bound_witness :
    (buildTimeSeriesPoints [lateSample 0, lateSample 1000, lateSample 2000] 0).length ≤ 2 + 1 :=
  (C9_bucket_count_bound [lateSample 0, lateSample 1000, lateSample 2000] 0 2 (by decide)).2.2

/-! ## Claim C10: rate-limit timestamp is set before the descriptor insert -/

/-- Read a caller's last start time from the rate-limit table
(`tm.lastTestStarts[clientIP]`, src/database.go:742). -/
def lookupLastStart (tbl : List (String × Int)) (ip : String) : Option Int :=
  match tbl.find? (fun p => p.1 == ip) with
  | some p => some p.2
  | none => none

/-- Overwrite a caller's last start time
(`tm.lastTestStarts[clientIP] = now`, src/database.go:749). -/
def setLastStart (tbl : List (String × Int)) (ip : String) (t : Int) : List (String × Int) :=
  (ip, t) :: tbl.filter (fun p => p.1 != ip)

/-- The observable outcome of the rate-limit/persist prefix of
`HandleStartTest`. -/
inductive StartOutcome where
  | rateLimited   -- HTTP 429 (src/database.go:744-748)
  | saveFailed    -- HTTP 500 (src/database.go:789-793)
  | started       -- run registered and launched (src/database.go:795-848)
deriving DecidableEq, Repr

/-- Result of a start attempt: outcome, the rate-limit table afterwards,
and whether a run was registered in the active-test registry. -/
structure StartAttemptResult where
  outcome : StartOutcome
  lastTestStarts : List (String × Int)
  runRegistered : Bool
deriving DecidableEq, Repr

/-- The rate-limit and persistence steps of `HandleStartTest`
(src/database.go:741-795), for a request that has passed the earlier
validations: reject when the caller started a test less than
`RateLimitSeconds = 5` seconds ago; otherwise record `now` as the
caller's last start time and only then attempt `SaveTestRun`, whose
failure (modelled by `saveOk = false`) aborts the start with no run
registered — but with the timestamp already written. -/
def startAttempt (tbl : List (String × Int)) (clientIP : String) (nowMs : Int)
    (saveOk : Bool) : StartAttemptResult :=
  let proceed : StartAttemptResult :=
    let tbl' := setLastStart tbl clientIP nowMs
    if saveOk then { outcome := .started, lastTestStarts := tbl', runRegistered := true }
    else { outcome := .saveFailed, lastTestStarts := tbl', runRegistered := false }
  match lookupLastStart tbl clientIP with
  | some lastStart =>
      if nowMs - lastStart < 5000 then
        { outcome := .rateLimited, lastTestStarts := tbl, runRegistered := false }
      else proceed
  | none => proceed

lemma lookupLastStart_set (tbl : List (String × Int)) (ip : String) (t : Int) :
    lookupLastStart (setLastStart tbl ip t) ip = some t := by
  simp [lookupLastStart, setLastStart, List.find?_cons]

/-- Claim C10: starting a run is not atomic with the rate-limit table.
If a caller free of the rate limit at time `t` hits a storage failure on
the descriptor insert, the attempt returns the storage error and
registers no run, yet the caller's last-start timestamp is already `t`,
so a retry within the next 5 seconds is rejected as rate-limited. -/
theorem C10_failed_save_still_rate_limits (tbl : List (String × Int)) (ip : String)
    (t tRetry : Int)
    (hfree : ∀ prev, lookupLastStart tbl ip = some prev → 5000 ≤ t - prev)
    (hsoon : tRetry - t < 5000) :
    (startAttempt tbl ip t false).outcome = .saveFailed
  ∧ (startAttempt tbl ip t false).runRegistered = false
  ∧ lookupLastStart (startAttempt tbl ip t false).lastTestStarts ip = some t
  ∧ (startAttempt (startAttempt tbl ip t false).lastTestStarts ip tRetry true).outcome
      = .rateLimited := by
  have hfirst : startAttempt tbl ip t false =
      { outcome := .saveFailed, lastTestStarts := setLastStart tbl ip t,
        runRegistered := false } := by
    unfold startAttempt
    cases hl : lookupLastStart tbl ip with
    | none => rfl
    | some prev =>
      have := hfree prev hl
      simp only []
      rw [if_neg (by omega)]
      rfl
  rw [hfirst]
  refine ⟨rfl, rfl, lookupLastStart_set tbl ip t, ?_⟩
  unfold startAttempt
  rw [lookupLastStart_set]
  simp only []
  rw [if_pos (by omega)]

/-- Witness for `C10_failed_save_still_rate_limits`: a first-time caller
whose insert fails at t = 0 ms is rate-limited on a retry at
t = 1000 ms. -/
theorem C10_failed_save_still_rate_limits_witness :
    (startAttempt (startAttempt [] "203.0.113.7" 0 false).lastTestStarts "203.0.113.7" 1000 true).outcome
      = .rateLimited :=
  (C10_failed_save_still_rate_limits [] "203.0.113.7" 0 1000
    (by intro prev hp; simp [lookupLastStart] at hp) (by norm_num)).2.2.2

end LoadTester
